import Mathlib

/-!
Shallow embedding of the response-shaping, validation and rendering core of
`src/binance_mcp.py` (a Binance market-data MCP server), together with proofs
about the spec-level claims for that file.

Modelling conventions:
* Python `float` values are modelled exactly as rational numbers (`PyFloat`,
  an integer numerator over a positive natural denominator, with semantics map
  `PyFloat.val : PyFloat → ℚ`).  Binary floating-point representation error is
  not modelled; numeric strings arriving from the provider are modelled by the
  rational value `float(...)` parses them to.
* Python `str` values are Lean `String`s; Python slicing/length count Unicode
  code points, exactly as `String.length`/`String.data` do.
* Raising an exception is modelled by `Except String α`; the message is the
  text the corresponding Python exception carries (`ZeroDivisionError`,
  `KeyError`, `IndexError` are abbreviated to their well-known texts).
* Provider JSON objects are modelled as structures of `Option`-valued fields:
  `none` models an absent key; `dict.get(k, default)` is `Option.getD`.
-/

/-- Exact value of a Python float: an integer numerator over a positive
natural denominator.  Arithmetic on these is exact rational arithmetic. -/
structure PyFloat where
  n : Int
  d : Nat
  dpos : 0 < d

instance (k : Nat) : OfNat PyFloat k := ⟨⟨(k : Int), 1, Nat.one_pos⟩⟩

/-- Build a `PyFloat` from a numerator and a (positive) denominator. -/
def mkPy (n : Int) (d : Nat) : PyFloat :=
  if h : 0 < d then ⟨n, d, h⟩ else ⟨n, 1, Nat.one_pos⟩

/-- Semantics of a `PyFloat` as a rational number. -/
def PyFloat.val (q : PyFloat) : ℚ := (q.n : ℚ) / (q.d : ℚ)

def pyAdd (a b : PyFloat) : PyFloat :=
  ⟨a.n * (b.d : Int) + b.n * (a.d : Int), a.d * b.d, Nat.mul_pos a.dpos b.dpos⟩

def pyNeg (a : PyFloat) : PyFloat := ⟨-a.n, a.d, a.dpos⟩

def pySub (a b : PyFloat) : PyFloat :=
  ⟨a.n * (b.d : Int) - b.n * (a.d : Int), a.d * b.d, Nat.mul_pos a.dpos b.dpos⟩

def pyMul (a b : PyFloat) : PyFloat :=
  ⟨a.n * b.n, a.d * b.d, Nat.mul_pos a.dpos b.dpos⟩

/-- Total division on `PyFloat`; division by (exact) zero returns a dummy value.
The dummy branch is never reached by the embedded code: Python division sites
that can divide by zero are modelled by `pydivE` below, and the remaining
division sites are guarded by positivity tests in the source. -/
def pyDiv (a b : PyFloat) : PyFloat :=
  if h : b.n.natAbs = 0 then ⟨0, 1, Nat.one_pos⟩
  else ⟨(if 0 ≤ b.n then a.n * (b.d : Int) else -(a.n * (b.d : Int))),
        a.d * b.n.natAbs, Nat.mul_pos a.dpos (Nat.pos_of_ne_zero h)⟩

instance : Add PyFloat := ⟨pyAdd⟩
instance : Sub PyFloat := ⟨pySub⟩
instance : Mul PyFloat := ⟨pyMul⟩
instance : Neg PyFloat := ⟨pyNeg⟩
instance : Div PyFloat := ⟨pyDiv⟩

instance : LT PyFloat := ⟨fun a b => a.n * (b.d : Int) < b.n * (a.d : Int)⟩
instance : LE PyFloat := ⟨fun a b => a.n * (b.d : Int) ≤ b.n * (a.d : Int)⟩

instance (a b : PyFloat) : Decidable (a < b) :=
  inferInstanceAs (Decidable (a.n * (b.d : Int) < b.n * (a.d : Int)))

instance (a b : PyFloat) : Decidable (a ≤ b) :=
  inferInstanceAs (Decidable (a.n * (b.d : Int) ≤ b.n * (a.d : Int)))

/-- Python float division, raising `ZeroDivisionError` on a zero divisor
(models `a / b` at sites where the source does not guard the divisor).
A Python float compares equal to `0.0` exactly when its exact value is zero,
i.e. when the numerator is zero. -/
def pydivE (a b : PyFloat) : Except String PyFloat :=
  if b.n = 0 then .error "float division by zero" else .ok (a / b)

/-- Round `n / d` (with `0 < d`) to the nearest natural number, ties to even —
the rounding Python `format` applies to the decimal expansion. -/
def roundHalfEvenN (n d : Nat) : Nat :=
  let q := n / d
  let r := n % d
  if 2 * r < d then q
  else if d < 2 * r then q + 1
  else if q % 2 = 0 then q else q + 1

/-- Insert a comma after every third character (input is the reversed digit
string of the integer part). -/
def group3Rev : List Char → List Char
  | a :: b :: c :: d :: rest => a :: b :: c :: ',' :: group3Rev (d :: rest)
  | l => l

/-- Thousands grouping of a digit string, as Python `f"{n:,}"` does. -/
def groupDigits (s : String) : String :=
  ⟨(group3Rev s.data.reverse).reverse⟩

/-- Left-pad a digit string with zeros to the requested width. -/
def padZeros (s : String) (w : Nat) : String :=
  ⟨List.replicate (w - s.length) '0' ++ s.data⟩

/-- Python fixed-point float formatting `f"{x:,.df}"` / `f"{x:.df}"` /
`f"{x:+.df}"`: optional sign, optional thousands separators, `dec` decimals,
ties rounded to even on the exact value. -/
def formatFixed (q : PyFloat) (dec : Nat) (sep : Bool) (forceSign : Bool) : String :=
  let neg := q.n < 0
  let m := roundHalfEvenN (q.n.natAbs * 10 ^ dec) q.d
  let ip := m / 10 ^ dec
  let fp := m % 10 ^ dec
  let ipStr := if sep then groupDigits (toString ip) else toString ip
  let sign := if neg then "-" else if forceSign then "+" else ""
  sign ++ ipStr ++ (if dec = 0 then "" else "." ++ padZeros (toString fp) dec)

/-- Python `f"${x:,.2f}"`. -/
def money2 (q : PyFloat) : String := "$" ++ formatFixed q 2 true false

/-- Python `f"{x:,.2f}"`. -/
def num2 (q : PyFloat) : String := formatFixed q 2 true false

/-- Python `f"{x:,.4f}"`. -/
def num4 (q : PyFloat) : String := formatFixed q 4 true false

/-- Python `f"{x:,.6f}"`. -/
def num6 (q : PyFloat) : String := formatFixed q 6 true false

/-- Python `f"{x:.1f}"`. -/
def pct1 (q : PyFloat) : String := formatFixed q 1 false false

/-- Python `f"{x:.2f}"`. -/
def pct2 (q : PyFloat) : String := formatFixed q 2 false false

/-- Python `f"{x:.3f}"`. -/
def pct3 (q : PyFloat) : String := formatFixed q 3 false false

/-- Python `f"{x:+.2f}"`. -/
def pct2s (q : PyFloat) : String := formatFixed q 2 false true

/-- Python `"\n".join(lines)`: every renderer in the source builds a list of
lines and joins it with newlines. -/
def joinNL : List String → String
  | [] => ""
  | [x] => x
  | x :: y :: rest => x ++ "\n" ++ joinNL (y :: rest)

/-- Python `", ".join(parts)`. -/
def joinComma : List String → String
  | [] => ""
  | [x] => x
  | x :: y :: rest => x ++ ", " ++ joinComma (y :: rest)

/-- Python string slicing `s[:k]` (counts code points). -/
def pyslice (s : String) (k : Nat) : String := ⟨s.data.take k⟩

/-- Containment of `needle` in `hay` as a proposition (Python `needle in hay`). -/
def strContains (hay needle : String) : Prop :=
  ∃ pre suf, hay.data = pre ++ needle.data ++ suf

/-- Boolean test: does `pat` occur at the head of `l`? -/
def startsWithB : List Char → List Char → Bool
  | _, [] => true
  | [], _ :: _ => false
  | a :: as, b :: bs => a == b && startsWithB as bs

/-- Boolean substring search. -/
def containsSub : List Char → List Char → Bool
  | [], pat => startsWithB [] pat
  | a :: rest, pat => startsWithB (a :: rest) pat || containsSub rest pat

/-- Boolean version of `strContains`. -/
def containsB (hay needle : String) : Bool := containsSub hay.data needle.data

/-- Leftmost, non-overlapping replacement of `pat` (non-empty) by the empty
string, with an explicit fuel argument for termination; models Python
`s.replace(pat, "")`. -/
def replaceAllAux (pat : List Char) : Nat → List Char → List Char
  | 0, s => s
  | _ + 1, [] => []
  | fuel + 1, c :: rest =>
    if startsWithB (c :: rest) pat && !pat.isEmpty then
      replaceAllAux pat fuel (List.drop (pat.length - 1) rest)
    else c :: replaceAllAux pat fuel rest

/-- Python `s.replace(pat, "")` for a non-empty `pat`. -/
def pyReplace (s pat : String) : String :=
  ⟨replaceAllAux pat.data s.data.length s.data⟩

/-- Python `str.upper` restricted to ASCII letters (the only case-carrying
characters that occur in trading-pair symbols). -/
def pyUpperChar (c : Char) : Char :=
  if h : 97 ≤ c.toNat ∧ c.toNat ≤ 122 then
    ⟨UInt32.ofNat (c.toNat - 32), by
      refine Or.inl ?_
      have hs : UInt32.size = 4294967296 := rfl
      rw [UInt32.toNat_ofNat_of_lt (by omega)]
      omega⟩
  else c

/-- Python `str.isspace` on the ASCII whitespace characters stripped by
`str.strip()`. -/
def pyIsSpaceB (c : Char) : Bool :=
  c == ' ' || c == '\t' || c == '\n' || c == '\r' || c == '\x0b' || c == '\x0c'

/-- Drop whitespace from the left end. -/
def stripL (p : Char → Bool) (l : List Char) : List Char := l.dropWhile p

/-- Drop whitespace from the right end. -/
def stripR (p : Char → Bool) (l : List Char) : List Char :=
  (l.reverse.dropWhile p).reverse

/-- Python `str.strip()` (both ends). -/
def pystrip (l : List Char) : List Char := stripR pyIsSpaceB (stripL pyIsSpaceB l)

/-- Symbol normalization `v.upper().strip()` shared by every symbol-carrying
input model (`TickerInput.normalize_symbols`, `OrderBookInput.normalize_symbol`,
`KlinesInput`/`RecentTradesInput`/`ExchangeInfoInput`/`PriceInput` validators;
src lines 64-68 and 111-114). -/
def normalize_symbol (s : String) : String :=
  ⟨pystrip (s.data.map pyUpperChar)⟩

/-- List form of the validator (`[s.upper().strip() for s in v]`). -/
def normalize_symbols (l : List String) : List String := l.map normalize_symbol

/-- Accepted order-book depth values (src line 119). -/
def valid_limits : List Int := [5, 10, 20, 50, 100, 500, 1000, 5000]

/-- Error message raised by `OrderBookInput.validate_limit` (src lines 121-123). -/
def limit_err_msg (v : Int) : String :=
  "Invalid limit " ++ toString v ++ ". Valid limits: " ++
    joinComma (valid_limits.map (fun l => toString l))

/-- Model of `OrderBookInput.validate_limit` (src lines 116-124): accept the limit when
it is one of `valid_limits`, otherwise raise a `ValueError` naming the full
accepted set. -/
def validate_limit (v : Int) : Except String Int :=
  if v ∈ valid_limits then .ok v else .error (limit_err_msg v)

/-- Civil date (year, month, day) from days since the Unix epoch
(Howard Hinnant's `civil_from_days` algorithm, as used by every calendar
library; models CPython's date computation inside `datetime.fromtimestamp`). -/
def civilFromDays (z0 : Int) : Int × Nat × Nat :=
  let z := z0 + 719468
  let era : Int := (if 0 ≤ z then z else z - 146096) / 146097
  let doe : Nat := (z - era * 146097).toNat
  let yoe : Nat := (doe - doe / 1460 + doe / 36524 - doe / 146096) / 365
  let y : Int := (yoe : Int) + era * 400
  let doy : Nat := doe - (365 * yoe + yoe / 4 - yoe / 100)
  let mp : Nat := (5 * doy + 2) / 153
  let dd : Nat := doy - (153 * mp + 2) / 5 + 1
  let m : Nat := if mp < 10 then mp + 3 else mp - 9
  (if m ≤ 2 then y + 1 else y, m, dd)

/-- Two-digit zero padding of a calendar/clock field. -/
def pad2 (n : Nat) : String := if n < 10 then "0" ++ toString n else toString n

/-- Model of `format_timestamp` (src lines 309-312): millisecond Unix timestamp to
`"%Y-%m-%d %H:%M:%S UTC"`.  The source calls `datetime.fromtimestamp`, which
uses the process-local timezone; the embedding fixes that timezone to UTC. -/
def format_timestamp (ms : Int) : String :=
  let secs := Int.fdiv ms 1000
  let days := Int.fdiv secs 86400
  let sod := (secs - days * 86400).toNat
  let c := civilFromDays days
  toString c.1 ++ "-" ++ pad2 c.2.1 ++ "-" ++ pad2 c.2.2 ++ " " ++
    pad2 (sod / 3600) ++ ":" ++ pad2 (sod % 3600 / 60) ++ ":" ++ pad2 (sod % 60) ++ " UTC"

/-- Floor of a `PyFloat` (used to read integer timestamps out of candle rows). -/
def pyFloorInt (q : PyFloat) : Int := Int.fdiv q.n q.d

/-- Output format selector (`ResponseFormat.response_format`, src lines 43-48). -/
inductive RespFormat
  | markdown
  | json
deriving DecidableEq

/-- Ticker verbosity selector (`TickerInput.type`, src lines 59-62). -/
inductive TickerType
  | FULL
  | MINI
deriving DecidableEq

def TickerType.str : TickerType → String
  | .FULL => "FULL"
  | .MINI => "MINI"

/-- Model of `TickerInput` after validation (src lines 51-68). -/
structure TickerInput where
  symbols : List String
  type : TickerType
  response_format : RespFormat

/-- Model of `OrderBookInput` after validation (src lines 100-124). -/
structure OrderBookInput where
  symbol : String
  limit : Int
  response_format : RespFormat

/-- Model of `PriceInput` after validation (src lines 201-214), also used by
`binance_get_best_price`. -/
structure PriceInput where
  symbols : List String
  response_format : RespFormat

/-- One ticker object of the provider's `/api/v3/ticker/24hr` response,
as read by `format_ticker_markdown`; every field access in the source is a
`dict.get` with a default, modelled by `Option`. -/
structure Ticker where
  symbol : Option String
  lastPrice : Option PyFloat
  price : Option PyFloat
  priceChange : Option PyFloat
  priceChangePercent : Option PyFloat
  highPrice : Option PyFloat
  lowPrice : Option PyFloat
  volume : Option PyFloat
  quoteVolume : Option PyFloat
  weightedAvgPrice : Option PyFloat
  bidPrice : Option PyFloat
  bidQty : Option PyFloat
  askPrice : Option PyFloat
  askQty : Option PyFloat
  closeTime : Option Int

/-- One symbol object of the provider's `/api/v3/exchangeInfo` response,
as read by `format_symbols_markdown`. -/
structure SymbolInfo where
  symbol : Option String
  status : Option String
  baseAsset : Option String
  quoteAsset : Option String
  isSpotTradingAllowed : Option Bool
  isMarginTradingAllowed : Option Bool
  ocoAllowed : Option Bool
  otoAllowed : Option Bool

/-- The provider's `/api/v3/depth` response: `data.get("bids", [])` and
`data.get("asks", [])` yield lists of `[price, qty]` string pairs, modelled by
their parsed values; a missing key yields the default `[]`. -/
structure OrderBook where
  lastUpdateId : Option Int
  bids : List (PyFloat × PyFloat)
  asks : List (PyFloat × PyFloat)

/-- One trade object of the provider's `/api/v3/trades` response. -/
structure Trade where
  time : Option Int
  price : Option PyFloat
  qty : Option PyFloat
  isBuyerMaker : Option Bool

/-- One object of the provider's `/api/v3/ticker/price` response. -/
structure PriceEntry where
  symbol : Option String
  price : Option PyFloat

/-- One object of the provider's `/api/v3/ticker/bookTicker` response. -/
structure BookTicker where
  symbol : Option String
  bidPrice : Option PyFloat
  bidQty : Option PyFloat
  askPrice : Option PyFloat
  askQty : Option PyFloat

/-- A provider JSON body that is either a single object or an array of
objects (the tools test `isinstance(data, list)`). -/
inductive ApiResult (α : Type)
  | single : α → ApiResult α
  | list : List α → ApiResult α

/-- The `if not isinstance(data, list): data = [data]` normalization shared by
`binance_get_ticker` (src 671-673), `binance_get_price` (src 1173-1175) and
`binance_get_best_price` (src 1237-1239). -/
def ensureList {α : Type} : ApiResult α → List α
  | .single a => [a]
  | .list l => l

/-- Model of `CHARACTER_LIMIT` (src line 26). -/
def CHARACTER_LIMIT : Nat := 25000

/-- The list-truncation notice built by `truncate_response` (src lines 354-361);
`f"{CHARACTER_LIMIT:,}"` renders as `25,000`. -/
def trunc_list_msg (shown total : Nat) : String :=
  "\n\n⚠️ Response truncated: Showing " ++ toString shown ++ " of " ++ toString total ++
    " items\n\n" ++
  "The full response exceeds the 25,000 character limit.\n\n" ++
  "To get more specific results:\n" ++
  "- Request fewer items\n" ++
  "- Use filters to narrow down results\n" ++
  "- Request data in multiple smaller queries"

/-- The hard-cut notice built by `truncate_response` (src lines 367-370). -/
def trunc_hard_msg : String :=
  "\n\n⚠️ Response truncated at 25,000 characters\n\n" ++
  "The full response was too large. Try using filters to get more specific data."

/-- Model of `truncate_response` (src lines 331-372).  The source's `data` is always a
list at every call site, so the Python guard `isinstance(data, list) and
item_limit` reduces to the truthiness of `item_limit` (`None` and `0` are both
falsy, modelled by `Option.getD 0 ≠ 0`). -/
def truncate_response {α : Type} (data : List α) (format_func : List α → String)
    (item_limit : Option Nat) : String × Bool × Option String :=
  if (format_func data).length ≤ CHARACTER_LIMIT then
    (format_func data, false, none)
  else if item_limit.getD 0 ≠ 0 then
    (format_func (data.take (max 1 (data.length / 2))) ++
       trunc_list_msg (max 1 (data.length / 2)) data.length,
     true, some (trunc_list_msg (max 1 (data.length / 2)) data.length))
  else
    (pyslice (format_func data) CHARACTER_LIMIT ++ trunc_hard_msg, true, some trunc_hard_msg)

/-- Model of `format_number` (src lines 315-328): abbreviate large magnitudes with a
B/M/K suffix, otherwise full value with thousands separators.  Only the
numeric branch is modelled (the `except` branch returns the raw string for
unparsable input, which `Option`-modelled numeric fields never produce). -/
def format_number (v : PyFloat) (decimals : Nat) : String :=
  if (1000000000 : PyFloat) ≤ v then "$" ++ formatFixed (v / 1000000000) 2 false false ++ "B"
  else if (1000000 : PyFloat) ≤ v then "$" ++ formatFixed (v / 1000000) 2 false false ++ "M"
  else if (1000 : PyFloat) ≤ v then "$" ++ formatFixed (v / 1000) 2 false false ++ "K"
  else "$" ++ formatFixed v decimals true false

/-- The `lastPrice`/`price` fallback of `format_ticker_markdown` (src line 389):
`ticker.get("lastPrice", ticker.get("price", "N/A"))`. -/
def ticker_price_opt (t : Ticker) : Option PyFloat :=
  match t.lastPrice with
  | some p => some p
  | none => t.price

/-- The lines `format_ticker_markdown` emits for one ticker (src lines 384-430). -/
def ticker_block (t : Ticker) (ticker_type : TickerType) : List String :=
  let symbol := t.symbol.getD "Unknown"
  let priceLine :=
    match ticker_price_opt t with
    | some p => "- **Current Price**: " ++ money2 p
    | none => "- **Current Price**: N/A"
  let fullLines :=
    if ticker_type = TickerType.FULL then
      let change := t.priceChange.getD 0
      let change_pct := t.priceChangePercent.getD 0
      let emoji :=
        if (0 : PyFloat) < change then "📈" else if change < (0 : PyFloat) then "📉" else "➡️"
      ["- **24h Change**: " ++ emoji ++ " " ++ pct2 change_pct ++ "% (" ++ money2 change ++ ")"] ++
      [match t.highPrice with
       | some h => "- **24h High**: " ++ money2 h
       | none => "- **24h High**: N/A"] ++
      [match t.lowPrice with
       | some l => "- **24h Low**: " ++ money2 l
       | none => "- **24h Low**: N/A"] ++
      (match t.volume with
       | some v =>
         let base_asset :=
           pyReplace (pyReplace (pyReplace (pyReplace symbol "USDT") "BUSD") "BTC") "ETH"
         ["- **24h Volume**: " ++ num2 v ++ " " ++ base_asset]
       | none => []) ++
      (match t.quoteVolume with
       | some qv => ["- **24h Quote Volume**: " ++ format_number qv 2]
       | none => []) ++
      (match t.weightedAvgPrice with
       | some w => ["- **Weighted Avg Price**: " ++ money2 w]
       | none => []) ++
      (match t.bidPrice with
       | some bp => ["- **Best Bid**: " ++ money2 bp ++ " (Qty: " ++ num4 (t.bidQty.getD 0) ++ ")"]
       | none => []) ++
      (match t.askPrice with
       | some ap => ["- **Best Ask**: " ++ money2 ap ++ " (Qty: " ++ num4 (t.askQty.getD 0) ++ ")"]
       | none => [])
    else []
  let closeLines :=
    match t.closeTime with
    | some ct => if ct ≠ 0 then ["- **Last Updated**: " ++ format_timestamp ct] else []
    | none => []
  ["## " ++ symbol ++ "\n", priceLine] ++ fullLines ++ closeLines ++ [""]

/-- Model of `format_ticker_markdown` (src lines 377-432). -/
def format_ticker_markdown (tickers : List Ticker) (ticker_type : TickerType) : String :=
  if tickers.isEmpty then "No ticker data found."
  else joinNL (["# Binance Ticker Information\n"] ++
               tickers.flatMap (fun t => ticker_block t ticker_type))

/-- The lines `format_symbols_markdown` emits for one symbol (src lines 442-468). -/
def symbol_block (sym : SymbolInfo) : List String :=
  let symbol := sym.symbol.getD "Unknown"
  let status := sym.status.getD "Unknown"
  let base := sym.baseAsset.getD ""
  let quote := sym.quoteAsset.getD ""
  let statusEmoji := if status = "TRADING" then "✅" else "⏸️"
  let features :=
    (if sym.isSpotTradingAllowed.getD false then ["Spot"] else []) ++
    (if sym.isMarginTradingAllowed.getD false then ["Margin"] else []) ++
    (if sym.ocoAllowed.getD false then ["OCO"] else []) ++
    (if sym.otoAllowed.getD false then ["OTO"] else [])
  ["## " ++ symbol ++ " " ++ statusEmoji,
   "- **Base Asset**: " ++ base,
   "- **Quote Asset**: " ++ quote,
   "- **Status**: " ++ status] ++
  (if features.isEmpty then [] else ["- **Supported**: " ++ joinComma features]) ++
  [""]

/-- Model of `format_symbols_markdown` (src lines 435-470). -/
def format_symbols_markdown (symbols : List SymbolInfo) : String :=
  if symbols.isEmpty then "No symbols found matching your criteria."
  else joinNL (["# Found " ++ toString symbols.length ++ " Trading Pairs\n"] ++
               symbols.flatMap symbol_block)

/-- One order-book table row (src lines 487-489 and 495-497):
`total = float(price) * float(qty)`. -/
def ob_row (price qty : PyFloat) : String :=
  "| " ++ money2 price ++ " | " ++ num6 qty ++ " | " ++ money2 (price * qty) ++ " |"

/-- The bid rows: `for i, (price, qty) in enumerate(bids[:10])` (src line 487). -/
def ob_bid_rows (bids : List (PyFloat × PyFloat)) : List String :=
  (bids.take 10).map (fun pq => ob_row pq.1 pq.2)

/-- The ask rows: `for i, (price, qty) in enumerate(asks[:10])` (src line 495). -/
def ob_ask_rows (asks : List (PyFloat × PyFloat)) : List String :=
  (asks.take 10).map (fun pq => ob_row pq.1 pq.2)

/-- The unconditional trailing note of the order-book rendering (src line 511). -/
def ob_note (nbids nasks : Nat) : String :=
  "\n*Showing top 10 levels. Total bids: " ++ toString nbids ++
    ", Total asks: " ++ toString nasks ++ "*"

/-- The spread-analysis section (src lines 500-509): emitted only when both
sides are non-empty; `spread_pct = (spread / best_bid) * 100` divides by the
float value of the best bid and raises `ZeroDivisionError` when it is zero. -/
def ob_spread_lines (bids asks : List (PyFloat × PyFloat)) : Except String (List String) :=
  match bids, asks with
  | (bp, _) :: _, (ap, _) :: _ =>
    match pydivE (ap - bp) bp with
    | .error e => .error e
    | .ok dq =>
      .ok ["\n## Spread Analysis",
           "- **Best Bid**: " ++ money2 bp,
           "- **Best Ask**: " ++ money2 ap,
           "- **Spread**: " ++ money2 (ap - bp) ++ " (" ++ pct3 (dq * 100) ++ "%)"]
  | _, _ => .ok []

/-- The heading and bid-table header of the order-book rendering
(src lines 475-486). -/
def ob_header (data : OrderBook) (symbol : String) : List String :=
  ["# Order Book for " ++ symbol ++ "\n",
   "**Last Update ID**: " ++
     (match data.lastUpdateId with | some i => toString i | none => "N/A") ++ "\n",
   "## Top Bids (Buy Orders)",
   "| Price | Quantity | Total |",
   "|-------|----------|-------|"]

/-- The ask-table header (src lines 491-493). -/
def ob_ask_header : List String :=
  ["\n## Top Asks (Sell Orders)",
   "| Price | Quantity | Total |",
   "|-------|----------|-------|"]

/-- Model of `format_order_book_markdown` (src lines 473-513). -/
def format_order_book_markdown (data : OrderBook) (symbol : String) : Except String String :=
  match ob_spread_lines data.bids data.asks with
  | .error e => .error e
  | .ok spreadLines =>
    .ok (joinNL (ob_header data symbol ++ ob_bid_rows data.bids ++ ob_ask_header ++
                 ob_ask_rows data.asks ++ spreadLines ++
                 [ob_note data.bids.length data.asks.length]))

/-- Read one positional field of a candle row; a row shorter than expected
raises `IndexError` (src lines 526-531 index positions 0-5 of each row). -/
def kline_index (k : List PyFloat) (i : Nat) : Except String PyFloat :=
  match k.get? i with
  | some v => .ok v
  | none => .error "list index out of range"

/-- The per-candle change `((close - open_price) / open_price) * 100 if
open_price > 0 else 0` (src line 533) and the period-summary change with the
same guard (src line 548), shared as one definition. -/
def klines_overall_change (first_close last_close : PyFloat) : PyFloat :=
  if (0 : PyFloat) < first_close then (last_close - first_close) / first_close * 100 else 0

/-- One candle table row (src lines 525-540).  All six positional reads must
succeed; the source reads them one after the other and any missing position
raises the same `IndexError`. -/
def kline_row (k : List PyFloat) : Except String String :=
  match k.get? 0, k.get? 1, k.get? 2, k.get? 3, k.get? 4, k.get? 5 with
  | some t, some o, some h, some l, some c, some v =>
    let change_pct := klines_overall_change o c
    let emoji :=
      if (0 : PyFloat) < change_pct then "📈"
      else if change_pct < (0 : PyFloat) then "📉" else "➡️"
    .ok ("| " ++ format_timestamp (pyFloorInt t) ++ " | " ++ money2 o ++ " | " ++ money2 h ++
         " | " ++ money2 l ++ " | " ++ money2 c ++ " | " ++ num2 v ++ " | " ++
         emoji ++ " " ++ pct2s change_pct ++ "% |")
  | _, _, _, _, _, _ => .error "list index out of range"

/-- Error-propagating map, modelling a Python `for` loop whose body may raise. -/
def mapME {α β : Type} (f : α → Except String β) : List α → Except String (List β)
  | [] => .ok []
  | x :: xs =>
    match f x with
    | .error e => .error e
    | .ok y =>
      match mapME f xs with
      | .error e => .error e
      | .ok ys => .ok (y :: ys)

/-- The heading and table header of the candle rendering (src lines 521-523). -/
def klines_header (symbol interval : String) : List String :=
  ["# Candlestick Data for " ++ symbol ++ " (" ++ interval ++ " interval)\n",
   "| Time | Open | High | Low | Close | Volume | Change % |",
   "|------|------|------|-----|-------|--------|----------|"]

/-- The `Candles Shown` summary line (src line 554). -/
def klines_shown_note (n : Nat) : String :=
  "- **Candles Shown**: " ++ toString (min n 50) ++ " of " ++ toString n

/-- The period summary plus the conditional overflow note (src lines 543-557). -/
def klines_summary (fc lc : PyFloat) (n : Nat) : List String :=
  ["\n## Period Summary",
   "- **First Close**: " ++ money2 fc,
   "- **Last Close**: " ++ money2 lc,
   "- **Overall Change**: " ++ pct2s (klines_overall_change fc lc) ++ "%",
   klines_shown_note n] ++
  (if 50 < n then
    ["\n*Showing first 50 of " ++ toString n ++
       " candles. Use start_time/end_time to get specific ranges.*"]
   else [])

/-- Model of `format_klines_markdown` (src lines 516-559).  The row loop over
`klines[:50]` runs before the summary reads `klines[0][4]` and `klines[-1][4]`,
so a row error surfaces first, as in the source. -/
def format_klines_markdown (klines : List (List PyFloat)) (symbol interval : String) :
    Except String String :=
  match klines with
  | [] => .ok ("No kline data found for " ++ symbol ++ " with interval " ++ interval ++ ".")
  | first :: rest =>
    match mapME kline_row ((first :: rest).take 50) with
    | .error e => .error e
    | .ok rows =>
      match kline_index first 4 with
      | .error e => .error e
      | .ok fc =>
        match kline_index ((first :: rest).getLastD []) 4 with
        | .error e => .error e
        | .ok lc =>
          .ok (joinNL (klines_header symbol interval ++ rows ++
                       klines_summary fc lc (first :: rest).length))

/-- One trade table row (src lines 571-582): every field is read with
`trade.get(key, default)` and therefore tolerates absence. -/
def trade_row (t : Trade) : String :=
  let time := format_timestamp (t.time.getD 0)
  let price := t.price.getD 0
  let qty := t.qty.getD 0
  let total := price * qty
  let is_buyer_maker := t.isBuyerMaker.getD false
  let side := if is_buyer_maker then "Sell" else "Buy"
  let side_emoji := if is_buyer_maker then "🔴" else "🟢"
  "| " ++ time ++ " | " ++ money2 price ++ " | " ++ num6 qty ++ " | " ++ money2 total ++
    " | " ++ side_emoji ++ " " ++ side ++ " |"

/-- The trade rows: `for trade in trades[:50]` (src line 571). -/
def trades_rows (trades : List Trade) : List String := (trades.take 50).map trade_row

/-- The heading and table header of the trades rendering (src lines 567-569). -/
def trades_header (symbol : String) : List String :=
  ["# Recent Trades for " ++ symbol ++ "\n",
   "| Time | Price | Quantity | Total | Side |",
   "|------|-------|----------|-------|------|"]

/-- The summary volume sums read `t["qty"]` by direct subscription
(src lines 585-586): a trade without `qty` raises `KeyError` here. -/
def getQtyE (t : Trade) : Except String PyFloat :=
  match t.qty with
  | some q => .ok q
  | none => .error "KeyError: qty"

/-- Model of `sum(float(t["qty"]) for t in ...)` over an already-filtered trade list. -/
def sumQtyE : List Trade → Except String PyFloat
  | [] => .ok 0
  | t :: ts =>
    match getQtyE t with
    | .error e => .error e
    | .ok q =>
      match sumQtyE ts with
      | .error e => .error e
      | .ok r => .ok (q + r)

/-- The trading summary (src lines 589-592). -/
def trades_summary (buy_volume sell_volume : PyFloat) (n : Nat) : List String :=
  let total_volume := buy_volume + sell_volume
  ["\n## Trading Summary",
   "- **Total Trades**: " ++ toString n,
   (if (0 : PyFloat) < total_volume then
      "- **Buy Volume**: " ++ num6 buy_volume ++ " (" ++
        pct1 (buy_volume / total_volume * 100) ++ "%)"
    else "- **Buy Volume**: 0"),
   (if (0 : PyFloat) < total_volume then
      "- **Sell Volume**: " ++ num6 sell_volume ++ " (" ++
        pct1 (sell_volume / total_volume * 100) ++ "%)"
    else "- **Sell Volume**: 0")]

/-- The overflow note of the trades rendering, emitted only when more than 50
trades were returned (src lines 594-595). -/
def trades_note (n : Nat) : String :=
  "\n*Showing 50 most recent of " ++ toString n ++ " trades.*"

/-- Model of `format_trades_markdown` (src lines 562-597). -/
def format_trades_markdown (trades : List Trade) (symbol : String) : Except String String :=
  match trades with
  | [] => .ok ("No recent trades found for " ++ symbol ++ ".")
  | _ :: _ =>
    match sumQtyE (trades.filter (fun t => !(t.isBuyerMaker.getD false))) with
    | .error e => .error e
    | .ok buy_volume =>
      match sumQtyE (trades.filter (fun t => t.isBuyerMaker.getD false)) with
      | .error e => .error e
      | .ok sell_volume =>
        .ok (joinNL (trades_header symbol ++ trades_rows trades ++
                     trades_summary buy_volume sell_volume trades.length ++
                     (if 50 < trades.length then [trades_note trades.length] else [])))

/-- One line of the price rendering (src lines 607-614). -/
def price_line (p : PriceEntry) : String :=
  let symbol := p.symbol.getD "Unknown"
  match p.price with
  | some pr => "- **" ++ symbol ++ "**: " ++ money2 pr
  | none => "- **" ++ symbol ++ "**: N/A"

/-- Model of `format_price_markdown` (src lines 600-616). -/
def format_price_markdown (prices : List PriceEntry) : String :=
  if prices.isEmpty then "No price data found."
  else joinNL (["# Current Prices\n"] ++ prices.map price_line)

/-- Model of `spread = ask_price - bid_price` of the best-price rendering (src line 1257). -/
def bp_spread (t : BookTicker) : PyFloat := t.askPrice.getD 0 - t.bidPrice.getD 0

/-- Model of `spread_pct = (spread / bid_price * 100) if bid_price > 0 else 0`
(src line 1258). -/
def bp_spread_pct (t : BookTicker) : PyFloat :=
  if (0 : PyFloat) < t.bidPrice.getD 0 then bp_spread t / t.bidPrice.getD 0 * 100 else 0

/-- The lines emitted per book ticker by `binance_get_best_price`
(src lines 1250-1264). -/
def bookticker_block (t : BookTicker) : List String :=
  ["## " ++ t.symbol.getD "Unknown",
   "- **Best Bid**: " ++ money2 (t.bidPrice.getD 0) ++ " (Qty: " ++ num6 (t.bidQty.getD 0) ++ ")",
   "- **Best Ask**: " ++ money2 (t.askPrice.getD 0) ++ " (Qty: " ++ num6 (t.askQty.getD 0) ++ ")",
   "- **Spread**: " ++ money2 (bp_spread t) ++ " (" ++ pct3 (bp_spread_pct t) ++ "%)",
   ""]

/-- The markdown branch of `binance_get_best_price` (src lines 1248-1266). -/
def format_best_price_markdown (data : List BookTicker) : String :=
  joinNL (["# Best Bid/Ask Prices\n"] ++ data.flatMap bookticker_block)

/-- JSON string literal (quoting only; provider strings carry no escapes). -/
def jsonString (s : String) : String := "\"" ++ s ++ "\""

/-- JSON rendering of a numeric provider field. -/
def jsonNum (q : PyFloat) : String := jsonString (formatFixed q 8 false false)

/-- Optional field of a serialized object. -/
def jsonOptNum (name : String) (v : Option PyFloat) : List String :=
  match v with
  | some q => [jsonString name ++ ": " ++ jsonNum q]
  | none => []

/-- Serialization of one ticker object.  Models the raw dict `json.dumps`
walks; the exact whitespace of `json.dumps(..., indent=2)` is not reproduced
and no claim depends on the serialized text. -/
def ticker_to_json (t : Ticker) : String :=
  "\x7b" ++ joinComma (
    (match t.symbol with
     | some s => [jsonString "symbol" ++ ": " ++ jsonString s]
     | none => []) ++
    jsonOptNum "lastPrice" t.lastPrice ++
    jsonOptNum "price" t.price ++
    jsonOptNum "priceChange" t.priceChange ++
    jsonOptNum "priceChangePercent" t.priceChangePercent ++
    jsonOptNum "highPrice" t.highPrice ++
    jsonOptNum "lowPrice" t.lowPrice ++
    jsonOptNum "volume" t.volume ++
    jsonOptNum "quoteVolume" t.quoteVolume ++
    jsonOptNum "weightedAvgPrice" t.weightedAvgPrice ++
    jsonOptNum "bidPrice" t.bidPrice ++
    jsonOptNum "bidQty" t.bidQty ++
    jsonOptNum "askPrice" t.askPrice ++
    jsonOptNum "askQty" t.askQty ++
    (match t.closeTime with
     | some ct => [jsonString "closeTime" ++ ": " ++ toString ct]
     | none => [])) ++ "\x7d"

/-- Model of `json.dumps({"data": data, "count": len(data), "type": params.type})` of
`binance_get_ticker` (src lines 677-681). -/
def ticker_json_dumps (data : List Ticker) (count : Nat) (ty : TickerType) : String :=
  "\x7b \"data\": [" ++ joinComma (data.map ticker_to_json) ++ "], \"count\": " ++
    toString count ++ ", \"type\": " ++ jsonString ty.str ++ " \x7d"

/-- Serialization of one `[price, qty]` level. -/
def pair_json (pq : PyFloat × PyFloat) : String :=
  "[" ++ jsonNum pq.1 ++ ", " ++ jsonNum pq.2 ++ "]"

/-- Model of `json.dumps(data)` of `binance_get_order_book` (src line 852). -/
def order_book_json (data : OrderBook) : String :=
  "\x7b \"lastUpdateId\": " ++
    (match data.lastUpdateId with | some i => toString i | none => "null") ++
  ", \"bids\": [" ++ joinComma (data.bids.map pair_json) ++
  "], \"asks\": [" ++ joinComma (data.asks.map pair_json) ++ "] \x7d"

/-- Serialization of one price object. -/
def price_to_json (p : PriceEntry) : String :=
  "\x7b" ++ joinComma (
    (match p.symbol with
     | some s => [jsonString "symbol" ++ ": " ++ jsonString s]
     | none => []) ++
    jsonOptNum "price" p.price) ++ "\x7d"

/-- Model of `json.dumps({"prices": data, "count": len(data)})` of `binance_get_price`
(src lines 1179-1182). -/
def price_json_dumps (data : List PriceEntry) (count : Nat) : String :=
  "\x7b \"prices\": [" ++ joinComma (data.map price_to_json) ++ "], \"count\": " ++
    toString count ++ " \x7d"

/-- Serialization of one book-ticker object. -/
def bookticker_to_json (t : BookTicker) : String :=
  "\x7b" ++ joinComma (
    (match t.symbol with
     | some s => [jsonString "symbol" ++ ": " ++ jsonString s]
     | none => []) ++
    jsonOptNum "bidPrice" t.bidPrice ++
    jsonOptNum "bidQty" t.bidQty ++
    jsonOptNum "askPrice" t.askPrice ++
    jsonOptNum "askQty" t.askQty) ++ "\x7d"

/-- Model of `json.dumps({"tickers": data, "count": len(data)})` of
`binance_get_best_price` (src lines 1243-1246). -/
def best_price_json_dumps (data : List BookTicker) (count : Nat) : String :=
  "\x7b \"tickers\": [" ++ joinComma (data.map bookticker_to_json) ++ "], \"count\": " ++
    toString count ++ " \x7d"

/-- The `try` body of `binance_get_ticker` (src lines 659-689), given the
outcome of the network fetch: list-wrap, then either the JSON dump or the
markdown rendering passed through the truncation policy. -/
def ticker_pipeline (params : TickerInput) (fetched : Except String (ApiResult Ticker)) :
    Except String String :=
  match fetched with
  | .error e => .error e
  | .ok raw =>
    let data := ensureList raw
    match params.response_format with
    | .json => .ok (ticker_json_dumps data data.length params.type)
    | .markdown =>
      .ok (truncate_response data (fun d => format_ticker_markdown d params.type)
            (some data.length)).1

/-- Model of `binance_get_ticker` (src lines 627-692): the `except` clause converts any
pipeline failure into a prefixed diagnostic string (src lines 691-692). -/
def binance_get_ticker (params : TickerInput) (fetched : Except String (ApiResult Ticker)) :
    String :=
  match ticker_pipeline params fetched with
  | .ok s => s
  | .error e => "Error fetching ticker data: " ++ e

/-- The `try` body of `binance_get_order_book` (src lines 841-854). -/
def order_book_pipeline (params : OrderBookInput) (fetched : Except String OrderBook) :
    Except String String :=
  match fetched with
  | .error e => .error e
  | .ok data =>
    match params.response_format with
    | .json => .ok (order_book_json data)
    | .markdown => format_order_book_markdown data params.symbol

/-- Model of `binance_get_order_book` (src lines 809-857) with its `except` clause
(src lines 856-857). -/
def binance_get_order_book (params : OrderBookInput) (fetched : Except String OrderBook) :
    String :=
  match order_book_pipeline params fetched with
  | .ok s => s
  | .error e => "Error fetching order book: " ++ e

/-- The `try` body of `binance_get_price` (src lines 1162-1184). -/
def price_pipeline (params : PriceInput) (fetched : Except String (ApiResult PriceEntry)) :
    Except String String :=
  match fetched with
  | .error e => .error e
  | .ok raw =>
    let data := ensureList raw
    match params.response_format with
    | .json => .ok (price_json_dumps data data.length)
    | .markdown => .ok (format_price_markdown data)

/-- Model of `binance_get_price` (src lines 1132-1187) with its `except` clause. -/
def binance_get_price (params : PriceInput) (fetched : Except String (ApiResult PriceEntry)) :
    String :=
  match price_pipeline params fetched with
  | .ok s => s
  | .error e => "Error fetching prices: " ++ e

/-- The `try` body of `binance_get_best_price` (src lines 1226-1266). -/
def best_price_pipeline (params : PriceInput) (fetched : Except String (ApiResult BookTicker)) :
    Except String String :=
  match fetched with
  | .error e => .error e
  | .ok raw =>
    let data := ensureList raw
    match params.response_format with
    | .json => .ok (best_price_json_dumps data data.length)
    | .markdown => .ok (format_best_price_markdown data)

/-- Model of `binance_get_best_price` (src lines 1196-1269) with its `except` clause. -/
def binance_get_best_price (params : PriceInput)
    (fetched : Except String (ApiResult BookTicker)) : String :=
  match best_price_pipeline params fetched with
  | .ok s => s
  | .error e => "Error fetching best prices: " ++ e

/-- The markdown branch of `binance_search_symbols` (src lines 791-797):
the filtered symbol list goes through the truncation policy with
`item_limit = len(filtered_symbols)`. -/
def binance_search_symbols_markdown (filtered : List SymbolInfo) : String :=
  (truncate_response filtered format_symbols_markdown (some filtered.length)).1

/-- The final length cap of the markdown branch of `binance_get_exchange_info`
(src lines 1114-1120): hard-cut the rendered report at `CHARACTER_LIMIT` and
append a notice. -/
def exchange_info_cap (result : String) : String :=
  if CHARACTER_LIMIT < result.length then
    pyslice result CHARACTER_LIMIT ++
      "\n\n⚠️ Response truncated. Use symbols parameter for specific pairs."
  else result

/-- Construction of `OrderBookInput` from raw tool arguments: the field
validators run before the tool body (src lines 111-124). -/
def mkOrderBookInput (symbol : String) (limit : Int) (fmt : RespFormat) :
    Except String OrderBookInput :=
  match validate_limit limit with
  | .error e => .error e
  | .ok l => .ok ⟨normalize_symbol symbol, l, fmt⟩

/-- Modelled from the spec: the tool-invocation framework (`fastmcp`/`pydantic`,
not part of `src/`) runs the input-model validators before the tool body and,
per spec sections 4.1 and 4.5, surfaces a validation failure as the call's
textual diagnostic without attempting any network call.  `fetch` is the
network oracle; on validation failure it is never consulted. -/
def order_book_call (symbol : String) (limit : Int) (fmt : RespFormat)
    (fetch : OrderBookInput → Except String OrderBook) : String :=
  match mkOrderBookInput symbol limit fmt with
  | .error e => e
  | .ok p => binance_get_order_book p (fetch p)

/-- A 26000-character symbol name (the provider payload is untrusted and
field sizes are unbounded). -/
def bigName : String := ⟨List.replicate 26000 'A'⟩

/-- A 25001-character string. -/
def bigString : String := ⟨List.replicate 25001 'a'⟩

/-- A symbol record whose name alone exceeds the character budget. -/
def bigSym : SymbolInfo :=
  ⟨some bigName, some "TRADING", some "A", some "B",
   some false, some false, some false, some false⟩

/-- An order book whose best bid price is exactly zero. -/
def zbook : OrderBook := ⟨some 1, [(mkPy 0 1, mkPy 1 1)], [(mkPy 5 1, mkPy 2 1)]⟩

/-- A trade record with no `qty` field. -/
def tradeNoQty : Trade := ⟨some 0, some (mkPy 1 1), none, some false⟩

/-- A complete, well-formed trade record. -/
def wtrade : Trade := ⟨some 0, some (mkPy 2 1), some (mkPy 3 1), some false⟩

/-- Two candle rows whose first close is negative (-1) and last close is 1. -/
def cexKlines : List (List PyFloat) :=
  [[0, 0, 0, 0, mkPy (-1) 1, 0], [0, 0, 0, 0, 1, 0]]

instance exceptDecEq {ε α : Type} [DecidableEq ε] [DecidableEq α] :
    DecidableEq (Except ε α) := fun a b =>
  match a, b with
  | .error x, .error y =>
    if h : x = y then .isTrue (congrArg Except.error h)
    else .isFalse (fun he => h (Except.error.inj he))
  | .error _, .ok _ => .isFalse (fun he => Except.noConfusion he)
  | .ok _, .error _ => .isFalse (fun he => Except.noConfusion he)
  | .ok x, .ok y =>
    if h : x = y then .isTrue (congrArg Except.ok h)
    else .isFalse (fun he => h (Except.ok.inj he))

theorem string_eq_of_data {a b : String} (h : a.data = b.data) : a = b := by
  cases a
  cases b
  exact congrArg String.mk h

theorem startsWithB_iff (l p : List Char) : startsWithB l p = true ↔ ∃ t, l = p ++ t := by
  induction p generalizing l with
  | nil => simp [startsWithB]
  | cons b bs ih =>
    cases l with
    | nil => simp [startsWithB]
    | cons a as =>
      simp only [startsWithB, Bool.and_eq_true, beq_iff_eq, ih]
      constructor
      · rintro ⟨rfl, t, rfl⟩
        exact ⟨t, rfl⟩
      · rintro ⟨t, ht⟩
        simp only [List.cons_append, List.cons.injEq] at ht
        exact ⟨ht.1, t, ht.2⟩

theorem containsSub_iff (l p : List Char) :
    containsSub l p = true ↔ ∃ pre suf, l = pre ++ p ++ suf := by
  induction l with
  | nil =>
    simp only [containsSub, startsWithB_iff]
    constructor
    · rintro ⟨t, ht⟩
      exact ⟨[], t, by simpa using ht⟩
    · rintro ⟨pre, suf, h⟩
      have h0 : pre ++ p ++ suf = [] := h.symm
      have h1 := List.append_eq_nil.mp h0
      have h2 := List.append_eq_nil.mp h1.1
      exact ⟨[], by simp [h2.2]⟩
  | cons a as ih =>
    simp only [containsSub, Bool.or_eq_true, startsWithB_iff, ih]
    constructor
    · rintro (⟨t, ht⟩ | ⟨pre, suf, h⟩)
      · exact ⟨[], t, by simpa using ht⟩
      · exact ⟨a :: pre, suf, by simp [h]⟩
    · rintro ⟨pre, suf, h⟩
      cases pre with
      | nil => exact Or.inl ⟨suf, by simpa using h⟩
      | cons x xs =>
        simp only [List.cons_append, List.cons.injEq] at h
        exact Or.inr ⟨xs, suf, h.2⟩

theorem containsB_iff (hay needle : String) :
    containsB hay needle = true ↔ strContains hay needle := by
  unfold containsB strContains
  exact containsSub_iff hay.data needle.data

instance (hay needle : String) : Decidable (strContains hay needle) :=
  decidable_of_iff (containsB hay needle = true) (containsB_iff hay needle)

theorem containsB_true_of {hay needle : String} (h : strContains hay needle) :
    containsB hay needle = true := (containsB_iff hay needle).mpr h

theorem strContains_appendL (s : String) {t p : String} (h : strContains t p) :
    strContains (s ++ t) p := by
  obtain ⟨pre, suf, hp⟩ := h
  exact ⟨s.data ++ pre, suf, by simp [String.data_append, hp, List.append_assoc]⟩

theorem strContains_appendR (t : String) {s p : String} (h : strContains s p) :
    strContains (s ++ t) p := by
  obtain ⟨pre, suf, hp⟩ := h
  exact ⟨pre, suf ++ t.data, by simp [String.data_append, hp, List.append_assoc]⟩

theorem strContains_refl (s : String) : strContains s s := ⟨[], [], by simp⟩

theorem strContains_trans {a b c : String} (h1 : strContains a b) (h2 : strContains b c) :
    strContains a c := by
  obtain ⟨p1, s1, e1⟩ := h1
  obtain ⟨p2, s2, e2⟩ := h2
  exact ⟨p1 ++ p2, s2 ++ s1, by simp [e1, e2, List.append_assoc]⟩

theorem strContains_of_mem_joinNL : ∀ (ls : List String) (x : String), x ∈ ls →
    strContains (joinNL ls) x
  | [], x, h => absurd h (List.not_mem_nil x)
  | [y], x, h => by
    have hx : x = y := by simpa using h
    subst hx
    exact strContains_refl x
  | y :: z :: rest, x, h => by
    rcases List.mem_cons.mp h with rfl | h2
    · show strContains ((x ++ "\n") ++ joinNL (z :: rest)) x
      exact strContains_appendR _ (strContains_appendR _ (strContains_refl x))
    · show strContains ((y ++ "\n") ++ joinNL (z :: rest)) x
      exact strContains_appendL _ (strContains_of_mem_joinNL (z :: rest) x h2)

theorem length_le_of_strContains {hay needle : String} (h : strContains hay needle) :
    needle.length ≤ hay.length := by
  obtain ⟨pre, suf, hp⟩ := h
  have := congrArg List.length hp
  simp only [List.length_append] at this
  have h1 : hay.data.length = hay.length := rfl
  have h2 : needle.data.length = needle.length := rfl
  omega

theorem val_ofNat (k : Nat) : (OfNat.ofNat k : PyFloat).val = (k : ℚ) := by
  show ((k : Int) : ℚ) / ((1 : Nat) : ℚ) = (k : ℚ)
  push_cast
  ring

theorem val_zero : (0 : PyFloat).val = 0 := val_ofNat 0

theorem pyfloat_den_pos (a : PyFloat) : (0 : ℚ) < (a.d : ℚ) := by
  exact_mod_cast a.dpos

theorem pyfloat_den_ne (a : PyFloat) : ((a.d : ℚ)) ≠ 0 := ne_of_gt (pyfloat_den_pos a)

theorem val_add (a b : PyFloat) : (a + b).val = a.val + b.val := by
  show ((a.n * (b.d : Int) + b.n * (a.d : Int) : Int) : ℚ) / ((a.d * b.d : Nat) : ℚ) =
    (a.n : ℚ) / (a.d : ℚ) + (b.n : ℚ) / (b.d : ℚ)
  have ha := pyfloat_den_ne a
  have hb := pyfloat_den_ne b
  field_simp

theorem val_sub (a b : PyFloat) : (a - b).val = a.val - b.val := by
  show ((a.n * (b.d : Int) - b.n * (a.d : Int) : Int) : ℚ) / ((a.d * b.d : Nat) : ℚ) =
    (a.n : ℚ) / (a.d : ℚ) - (b.n : ℚ) / (b.d : ℚ)
  have ha := pyfloat_den_ne a
  have hb := pyfloat_den_ne b
  field_simp
  ring

theorem val_mul (a b : PyFloat) : (a * b).val = a.val * b.val := by
  show ((a.n * b.n : Int) : ℚ) / ((a.d * b.d : Nat) : ℚ) =
    (a.n : ℚ) / (a.d : ℚ) * ((b.n : ℚ) / (b.d : ℚ))
  have ha := pyfloat_den_ne a
  have hb := pyfloat_den_ne b
  field_simp

theorem val_eq_zero_iff (b : PyFloat) : b.val = 0 ↔ b.n = 0 := by
  unfold PyFloat.val
  rw [div_eq_zero_iff]
  have hb := pyfloat_den_ne b
  constructor
  · rintro (h | h)
    · exact_mod_cast h
    · exact absurd h hb
  · intro h
    exact Or.inl (by exact_mod_cast h)

theorem val_div (a b : PyFloat) (h : b.val ≠ 0) : (a / b).val = a.val / b.val := by
  have hn : b.n ≠ 0 := fun h0 => h ((val_eq_zero_iff b).mpr h0)
  have hna : ¬ b.n.natAbs = 0 := by simpa using hn
  show (pyDiv a b).val = _
  unfold pyDiv
  rw [dif_neg hna]
  simp only [PyFloat.val]
  have ha := pyfloat_den_ne a
  have hbd := pyfloat_den_ne b
  have hbn : ((b.n : ℚ)) ≠ 0 := by exact_mod_cast hn
  rcases le_or_lt 0 b.n with hb | hb
  · have habsq : ((b.n.natAbs : Nat) : ℚ) = (b.n : ℚ) := by
      rw [Int.cast_natAbs]
      exact_mod_cast abs_of_nonneg hb
    rw [if_pos hb]
    push_cast [habsq]
    field_simp
    try ring
  · have habsq : ((b.n.natAbs : Nat) : ℚ) = -(b.n : ℚ) := by
      rw [Int.cast_natAbs]
      exact_mod_cast abs_of_nonpos (le_of_lt hb)
    rw [if_neg (not_le.mpr hb)]
    push_cast [habsq]
    field_simp
    try ring

theorem val_lt (a b : PyFloat) : a < b ↔ a.val < b.val := by
  show a.n * (b.d : Int) < b.n * (a.d : Int) ↔ (a.n : ℚ) / (a.d : ℚ) < (b.n : ℚ) / (b.d : ℚ)
  rw [div_lt_div_iff (pyfloat_den_pos a) (pyfloat_den_pos b)]
  exact_mod_cast Iff.rfl

theorem zero_lt_val (b : PyFloat) : (0 : PyFloat) < b ↔ 0 < b.val := by
  rw [val_lt, val_zero]

theorem pyUpperChar_toNat_of_lower {c : Char} (h : 97 ≤ c.toNat ∧ c.toNat ≤ 122) :
    (pyUpperChar c).toNat = c.toNat - 32 := by
  unfold pyUpperChar
  rw [dif_pos h]
  show (UInt32.ofNat (c.toNat - 32)).toNat = c.toNat - 32
  have hs : UInt32.size = 4294967296 := rfl
  exact UInt32.toNat_ofNat_of_lt (by omega)

theorem pyUpperChar_eq_of_not_lower {c : Char} (h : ¬(97 ≤ c.toNat ∧ c.toNat ≤ 122)) :
    pyUpperChar c = c := by
  unfold pyUpperChar
  rw [dif_neg h]

theorem pyUpperChar_idem (c : Char) : pyUpperChar (pyUpperChar c) = pyUpperChar c := by
  by_cases h : 97 ≤ c.toNat ∧ c.toNat ≤ 122
  · have ht := pyUpperChar_toNat_of_lower h
    exact pyUpperChar_eq_of_not_lower (by omega)
  · rw [pyUpperChar_eq_of_not_lower h]
    exact pyUpperChar_eq_of_not_lower h

theorem pyIsSpaceB_eq_false_of_ge {c : Char} (h : 33 ≤ c.toNat) : pyIsSpaceB c = false := by
  simp only [pyIsSpaceB, Bool.or_eq_false_iff]
  refine ⟨⟨⟨⟨⟨?_, ?_⟩, ?_⟩, ?_⟩, ?_⟩, ?_⟩ <;>
  · rw [beq_eq_false_iff_ne]
    intro heq
    subst heq
    exact absurd h (by decide)

theorem pyIsSpaceB_upper (c : Char) : pyIsSpaceB (pyUpperChar c) = pyIsSpaceB c := by
  by_cases h : 97 ≤ c.toNat ∧ c.toNat ≤ 122
  · have ht := pyUpperChar_toNat_of_lower h
    rw [pyIsSpaceB_eq_false_of_ge (by omega), pyIsSpaceB_eq_false_of_ge (by omega)]
  · rw [pyUpperChar_eq_of_not_lower h]

theorem dropWhile_dropWhile_self {α : Type} (p : α → Bool) (l : List α) :
    (l.dropWhile p).dropWhile p = l.dropWhile p := by
  induction l with
  | nil => rfl
  | cons a as ih =>
    by_cases h : p a
    · simp [List.dropWhile_cons, h, ih]
    · simp [List.dropWhile_cons, h]

theorem stripR_stripR (p : Char → Bool) (l : List Char) :
    stripR p (stripR p l) = stripR p l := by
  unfold stripR
  rw [List.reverse_reverse, dropWhile_dropWhile_self]

theorem dropWhile_stripR (p : Char → Bool) (l : List Char) :
    (stripR p (l.dropWhile p)).dropWhile p = stripR p (l.dropWhile p) := by
  cases hm : l.dropWhile p with
  | nil => simp [stripR]
  | cons a as =>
    have hpa : p a = false := by
      have h2 := List.head?_dropWhile_not p l
      rw [hm] at h2
      simpa using h2
    have hsplit : stripR p (a :: as) ++ ((a :: as).reverse.takeWhile p).reverse = a :: as := by
      unfold stripR
      rw [← List.reverse_append, List.takeWhile_append_dropWhile, List.reverse_reverse]
    cases hr : stripR p (a :: as) with
    | nil => simp
    | cons b bs =>
      have hba : b = a := by
        rw [hr] at hsplit
        simp only [List.cons_append, List.cons.injEq] at hsplit
        exact hsplit.1
      rw [List.dropWhile_cons, hba, hpa]
      simp

theorem pystrip_idem (l : List Char) : pystrip (pystrip l) = pystrip l := by
  unfold pystrip stripL
  rw [dropWhile_stripR, stripR_stripR]

theorem map_upper_pystrip (l : List Char) :
    pystrip (l.map pyUpperChar) = (pystrip l).map pyUpperChar := by
  have hp : (pyIsSpaceB ∘ pyUpperChar) = pyIsSpaceB := funext pyIsSpaceB_upper
  unfold pystrip stripL stripR
  rw [List.dropWhile_map, hp, ← List.map_reverse, List.dropWhile_map, hp, ← List.map_reverse]

theorem map_upper_idem (l : List Char) :
    (l.map pyUpperChar).map pyUpperChar = l.map pyUpperChar := by
  rw [List.map_map]
  exact List.map_congr_left (fun a _ => pyUpperChar_idem a)

theorem normalize_symbol_idem (s : String) :
    normalize_symbol (normalize_symbol s) = normalize_symbol s := by
  unfold normalize_symbol
  apply string_eq_of_data
  show pystrip ((pystrip (s.data.map pyUpperChar)).map pyUpperChar) =
    pystrip (s.data.map pyUpperChar)
  rw [← map_upper_pystrip, map_upper_idem, pystrip_idem]

theorem normalize_symbol_case {s t : String}
    (h : s.data.map pyUpperChar = t.data.map pyUpperChar) :
    normalize_symbol s = normalize_symbol t := by
  unfold normalize_symbol
  apply string_eq_of_data
  show pystrip (s.data.map pyUpperChar) = pystrip (t.data.map pyUpperChar)
  rw [h]

theorem mapME_ok_length {α β : Type} (f : α → Except String β) :
    ∀ (l : List α) (ys : List β), mapME f l = .ok ys → ys.length = l.length := by
  intro l
  induction l with
  | nil =>
    intro ys h
    simp only [mapME] at h
    cases h
    rfl
  | cons x xs ih =>
    intro ys h
    unfold mapME at h
    cases hf : f x with
    | error e => rw [hf] at h; cases h
    | ok y =>
      rw [hf] at h
      cases hm : mapME f xs with
      | error e => rw [hm] at h; cases h
      | ok zs =>
        rw [hm] at h
        cases h
        simp [ih zs hm]

theorem mapME_ok_of_forall {α β : Type} (f : α → Except String β) :
    ∀ l : List α, (∀ x ∈ l, ∃ y, f x = .ok y) → ∃ ys, mapME f l = .ok ys := by
  intro l
  induction l with
  | nil => exact fun _ => ⟨[], rfl⟩
  | cons x xs ih =>
    intro h
    obtain ⟨y, hy⟩ := h x (List.mem_cons_self x xs)
    obtain ⟨ys, hys⟩ := ih (fun a ha => h a (List.mem_cons_of_mem x ha))
    refine ⟨y :: ys, ?_⟩
    unfold mapME
    rw [hy, hys]

theorem sumQtyE_ok : ∀ ts : List Trade, (∀ t ∈ ts, t.qty.isSome) → ∃ q, sumQtyE ts = .ok q := by
  intro ts
  induction ts with
  | nil => exact fun _ => ⟨0, rfl⟩
  | cons t rest ih =>
    intro h
    obtain ⟨v, hv⟩ := Option.isSome_iff_exists.mp (h t (List.mem_cons_self t rest))
    obtain ⟨q, hq⟩ := ih (fun a ha => h a (List.mem_cons_of_mem t ha))
    refine ⟨v + q, ?_⟩
    unfold sumQtyE getQtyE
    rw [hv, hq]

theorem trunc_list_msg_len_pos (s t : Nat) : 0 < (trunc_list_msg s t).length := by
  unfold trunc_list_msg
  simp only [String.length_append]
  have h : 0 < ("\n\n⚠️ Response truncated: Showing " : String).length := by decide
  omega

theorem trunc_hard_msg_len_pos : 0 < trunc_hard_msg.length := by decide

/-- C4: the truncation policy returns the text unchanged with `wasTruncated =
false` whenever the full rendering fits the 25,000-character budget; when it
truncates a non-empty list source it keeps exactly `max 1 (n / 2)` of the `n`
records, re-renders, and appends the notice stating how many of how many
records are shown; and whenever truncation occurs the returned text is at
least as long as the appended degradation notice. -/
theorem binance_c4_truncation_policy {α : Type} (data : List α) (fmt : List α → String)
    (il : Option Nat) :
    (25000 < (fmt data).length ∨ truncate_response data fmt il = (fmt data, false, none)) ∧
    (data = [] ∨ (fmt data).length ≤ 25000 ∨
      truncate_response data fmt (some data.length) =
        (fmt (data.take (max 1 (data.length / 2))) ++
           trunc_list_msg (max 1 (data.length / 2)) data.length, true,
         some (trunc_list_msg (max 1 (data.length / 2)) data.length))) ∧
    ((truncate_response data fmt il).2.1 = false ∨
      ∃ m, (truncate_response data fmt il).2.2 = some m ∧
        m.length ≤ (truncate_response data fmt il).1.length) := by
  refine ⟨?_, ?_, ?_⟩
  · by_cases h : (fmt data).length ≤ 25000
    · right
      simp [truncate_response, CHARACTER_LIMIT, h]
    · left
      omega
  · by_cases hd : data = []
    · exact Or.inl hd
    · by_cases h : (fmt data).length ≤ 25000
      · exact Or.inr (Or.inl h)
      · right; right
        have hne : data.length ≠ 0 := by
          simpa [List.length_eq_zero] using hd
        simp [truncate_response, CHARACTER_LIMIT, h, hne]
  · unfold truncate_response
    split_ifs with h1 h2
    · exact Or.inl rfl
    · refine Or.inr ⟨_, rfl, ?_⟩
      rw [String.length_append]
      omega
    · refine Or.inr ⟨_, rfl, ?_⟩
      rw [String.length_append]
      omega

/-- C1 (amended): for every output produced through the truncation policy,
either no truncation occurred — then the output is the full rendering and its
length is within the 25,000-character budget — or truncation occurred and the
output carries the degradation notice as a (non-empty) suffix; a truncated
output may exceed the budget. -/
theorem binance_c1_truncation_budget {α : Type} (data : List α) (fmt : List α → String)
    (il : Option Nat) :
    ((truncate_response data fmt il).2.1 = false ∧
      (truncate_response data fmt il).1 = fmt data ∧
      (truncate_response data fmt il).1.length ≤ 25000) ∨
    ((truncate_response data fmt il).2.1 = true ∧
      ∃ body msg, (truncate_response data fmt il).2.2 = some msg ∧
        (truncate_response data fmt il).1 = body ++ msg ∧ 0 < msg.length) := by
  unfold truncate_response
  split_ifs with h1 h2
  · exact Or.inl ⟨rfl, rfl, h1⟩
  · exact Or.inr ⟨rfl, _, _, rfl, rfl, trunc_list_msg_len_pos _ _⟩
  · exact Or.inr ⟨rfl, _, _, rfl, rfl, trunc_hard_msg_len_pos⟩

theorem bigName_length : bigName.length = 26000 := by
  have h : bigName.length = (List.replicate 26000 'A').length := rfl
  rw [h, List.length_replicate]

theorem bigString_length : bigString.length = 25001 := by
  have h : bigString.length = (List.replicate 25001 'a').length := rfl
  rw [h, List.length_replicate]

theorem symbol_block_bigSym : symbol_block bigSym =
    ["## " ++ bigName ++ " " ++ "✅",
     "- **Base Asset**: " ++ "A",
     "- **Quote Asset**: " ++ "B",
     "- **Status**: " ++ "TRADING",
     ""] := by
  unfold symbol_block bigSym
  rfl

theorem format_symbols_bigSym : format_symbols_markdown [bigSym] =
    joinNL (["# Found 1 Trading Pairs\n"] ++ symbol_block bigSym) := by
  unfold format_symbols_markdown
  rfl




theorem bigSym_line_contains : strContains ("## " ++ bigName ++ " " ++ "✅") bigName :=
  ⟨"## ".data, " ".data ++ "✅".data, by
    rw [String.data_append, String.data_append, String.data_append, List.append_assoc]⟩

theorem format_symbols_bigSym_contains :
    strContains (format_symbols_markdown [bigSym]) bigName := by
  rw [format_symbols_bigSym, symbol_block_bigSym]
  refine strContains_trans (strContains_of_mem_joinNL _ ("## " ++ bigName ++ " " ++ "✅") ?_)
    bigSym_line_contains
  exact List.mem_cons_of_mem _ (List.mem_cons_self _ _)

theorem format_symbols_bigSym_length : 26000 ≤ (format_symbols_markdown [bigSym]).length := by
  have h := length_le_of_strContains format_symbols_bigSym_contains
  rw [bigName_length] at h
  exact h


theorem c1cex_step1 : (some ([bigSym].length)).getD 0 ≠ 0 := by
  have h : [bigSym].length = 1 := rfl
  rw [Option.getD_some, h]
  omega




theorem search_markdown_def (filtered : List SymbolInfo) :
    binance_search_symbols_markdown filtered =
      (truncate_response filtered format_symbols_markdown (some filtered.length)).1 := rfl

theorem truncate_response_fst_long {α : Type} (data : List α) (fmt : List α → String)
    (h : ¬ ((fmt data).length ≤ CHARACTER_LIMIT)) (hil : data.length ≠ 0) :
    (truncate_response data fmt (some data.length)).1 =
      fmt (data.take (max 1 (data.length / 2))) ++
        trunc_list_msg (max 1 (data.length / 2)) data.length := by
  unfold truncate_response
  rw [if_neg h, if_pos (by simpa using hil)]

theorem take_max_singleton {α : Type} (x : α) : [x].take (max 1 ([x].length / 2)) = [x] := by
  rw [List.length_singleton]
  norm_num

/-- C1 (counterexample): the claim "the output string's length is at most the
fixed character budget of 25,000" is false.  A single provider symbol record
with a 26,000-character name makes the markdown branch of
`binance_search_symbols` return more than 25,000 characters (the halving step
cannot shrink a one-record list below one record), and the markdown branch of
`binance_get_exchange_info` caps the rendered body at 25,000 characters and
then appends its notice, again exceeding the budget. -/
theorem binance_c1_cex : 25000 < (binance_search_symbols_markdown [bigSym]).length ∧
    25000 < (exchange_info_cap bigString).length := by
  constructor
  · have h26 := format_symbols_bigSym_length
    have hgt : ¬ ((format_symbols_markdown [bigSym]).length ≤ CHARACTER_LIMIT) := by
      unfold CHARACTER_LIMIT
      omega
    rw [search_markdown_def, truncate_response_fst_long [bigSym] format_symbols_markdown hgt
      (by rw [List.length_singleton]; omega)]
    rw [take_max_singleton, String.length_append]
    omega
  · have hbs := bigString_length
    have hlt : CHARACTER_LIMIT < bigString.length := by
      unfold CHARACTER_LIMIT
      omega
    unfold exchange_info_cap
    rw [if_pos hlt, String.length_append]
    have hp : (pyslice bigString CHARACTER_LIMIT).length = 25000 := by
      show (bigString.data.take CHARACTER_LIMIT).length = 25000
      rw [List.length_take]
      have hd : bigString.data.length = 25001 := bigString_length
      unfold CHARACTER_LIMIT
      omega
    have hn : 0 <
        ("\n\n⚠️ Response truncated. Use symbols parameter for specific pairs." : String).length :=
      by decide
    omega

/-- C5: symbol normalization (`v.upper().strip()`, shared by
`TickerInput.normalize_symbols` and `OrderBookInput.normalize_symbol`) is
idempotent; any two inputs equal up to letter case normalize identically;
"btcusdt" and "BTCUSDT" both normalize to "BTCUSDT"; and the list-valued
validator is idempotent as well. -/
theorem binance_c5_normalize_idempotent :
    (∀ s : String, normalize_symbol (normalize_symbol s) = normalize_symbol s) ∧
    (∀ s t : String, ¬ (s.data.map pyUpperChar = t.data.map pyUpperChar) ∨
      normalize_symbol s = normalize_symbol t) ∧
    normalize_symbol "btcusdt" = "BTCUSDT" ∧
    normalize_symbol "BTCUSDT" = "BTCUSDT" ∧
    (∀ l : List String, normalize_symbols (normalize_symbols l) = normalize_symbols l) := by
  refine ⟨normalize_symbol_idem, ?_, by decide, by decide, ?_⟩
  · intro s t
    by_cases h : s.data.map pyUpperChar = t.data.map pyUpperChar
    · exact Or.inr (normalize_symbol_case h)
    · exact Or.inl h
  · intro l
    unfold normalize_symbols
    rw [List.map_map]
    exact List.map_congr_left (fun a _ => normalize_symbol_idem a)

theorem limit_err_msg_const :
    joinComma (valid_limits.map (fun l => toString l)) =
      "5, 10, 20, 50, 100, 500, 1000, 5000" := by decide

theorem limit_err_contains (v : Int) (pat : String)
    (h : strContains "5, 10, 20, 50, 100, 500, 1000, 5000" pat) :
    containsB (limit_err_msg v) pat = true := by
  apply containsB_true_of
  unfold limit_err_msg
  rw [limit_err_msg_const]
  exact strContains_appendL _ h

/-- C7: `OrderBookInput.validate_limit` accepts an integer exactly when it
belongs to {5, 10, 20, 50, 100, 500, 1000, 5000}; any other integer fails with
an error message in which every member of the accepted set appears; and on an
invalid limit the call's outcome does not depend on the network oracle — no
network call is consulted. -/
theorem binance_c7_depth_validation :
    ∀ v : Int,
      ((validate_limit v = .ok v) ↔ v ∈ valid_limits) ∧
      (v ∈ valid_limits ∨
        (validate_limit v = .error (limit_err_msg v) ∧
         (valid_limits.all (fun l => containsB (limit_err_msg v) (toString l))) = true ∧
         ∀ (sym : String) (fmt : RespFormat)
           (f₁ f₂ : OrderBookInput → Except String OrderBook),
           order_book_call sym v fmt f₁ = order_book_call sym v fmt f₂)) := by
  intro v
  constructor
  · constructor
    · intro h
      by_cases hm : v ∈ valid_limits
      · exact hm
      · rw [validate_limit, if_neg hm] at h
        exact Except.noConfusion h
    · intro hm
      rw [validate_limit, if_pos hm]
  · by_cases hm : v ∈ valid_limits
    · exact Or.inl hm
    · right
      have hv : validate_limit v = .error (limit_err_msg v) := by
        rw [validate_limit, if_neg hm]
      refine ⟨hv, ?_, ?_⟩
      · apply List.all_eq_true.mpr
        intro x hx
        have hx8 : x = 5 ∨ x = 10 ∨ x = 20 ∨ x = 50 ∨ x = 100 ∨ x = 500 ∨ x = 1000 ∨
            x = 5000 := by
          simpa [valid_limits] using hx
        rcases hx8 with rfl | rfl | rfl | rfl | rfl | rfl | rfl | rfl <;>
          exact limit_err_contains v _ (by decide)
      · intro sym fmt f₁ f₂
        unfold order_book_call mkOrderBookInput
        rw [hv]

/-- C9: at the dispatch boundary of `binance_get_ticker` and
`binance_get_order_book`, every pipeline failure (network fetch or rendering)
is converted into a diagnostic string carrying the tool's error prefix, and a
successful pipeline result is returned as is — the caller always receives a
string.  For the full call with raw arguments, a validation failure is
surfaced as the validator's message and the outcome never consults the
network oracle. -/
theorem binance_c9_dispatch_boundary :
    (∀ (p : TickerInput) (f : Except String (ApiResult Ticker)),
       (∃ s, ticker_pipeline p f = .ok s ∧ binance_get_ticker p f = s) ∨
       (∃ e, ticker_pipeline p f = .error e ∧
          binance_get_ticker p f = "Error fetching ticker data: " ++ e)) ∧
    (∀ (p : OrderBookInput) (f : Except String OrderBook),
       (∃ s, order_book_pipeline p f = .ok s ∧ binance_get_order_book p f = s) ∨
       (∃ e, order_book_pipeline p f = .error e ∧
          binance_get_order_book p f = "Error fetching order book: " ++ e)) ∧
    (∀ (symbol : String) (limit : Int) (fmt : RespFormat)
        (fetch : OrderBookInput → Except String OrderBook),
       (∃ e, mkOrderBookInput symbol limit fmt = .error e ∧
          order_book_call symbol limit fmt fetch = e) ∨
       (∃ p, mkOrderBookInput symbol limit fmt = .ok p ∧
          order_book_call symbol limit fmt fetch = binance_get_order_book p (fetch p))) := by
  refine ⟨?_, ?_, ?_⟩
  · intro p f
    cases h : ticker_pipeline p f with
    | ok s => exact Or.inl ⟨s, rfl, by unfold binance_get_ticker; rw [h]⟩
    | error e => exact Or.inr ⟨e, rfl, by unfold binance_get_ticker; rw [h]⟩
  · intro p f
    cases h : order_book_pipeline p f with
    | ok s => exact Or.inl ⟨s, rfl, by unfold binance_get_order_book; rw [h]⟩
    | error e => exact Or.inr ⟨e, rfl, by unfold binance_get_order_book; rw [h]⟩
  · intro symbol limit fmt fetch
    cases h : mkOrderBookInput symbol limit fmt with
    | ok p => exact Or.inr ⟨p, rfl, by unfold order_book_call; rw [h]⟩
    | error e => exact Or.inl ⟨e, rfl, by unfold order_book_call; rw [h]⟩

/-- C10: in the ticker, price and best-price operations, a provider response
that is a single JSON object is wrapped into a one-element list before
rendering, so a single-object response yields exactly the same output — in
both markdown and json formats — as a one-element array response carrying the
same object. -/
theorem binance_c10_single_object_wrapped :
    (∀ (p : TickerInput) (o : Ticker),
       binance_get_ticker p (.ok (.single o)) = binance_get_ticker p (.ok (.list [o]))) ∧
    (∀ (p : PriceInput) (o : PriceEntry),
       binance_get_price p (.ok (.single o)) = binance_get_price p (.ok (.list [o]))) ∧
    (∀ (p : PriceInput) (o : BookTicker),
       binance_get_best_price p (.ok (.single o)) =
         binance_get_best_price p (.ok (.list [o]))) :=
  ⟨fun _ _ => rfl, fun _ _ => rfl, fun _ _ => rfl⟩

/-- C6 (amended): the period-summary overall change equals
`(last close − first close) / first close × 100` exactly whenever the first
close is positive; when the first close is not positive — zero included — the
computed overall change is 0, and no division error is ever raised (the guard
in the source is `first_close > 0`, not `first_close != 0`). -/
theorem binance_c6_overall_change :
    ∀ fc lc : PyFloat,
      (¬ 0 < fc.val ∨
        (klines_overall_change fc lc).val = (lc.val - fc.val) / fc.val * 100) ∧
      (0 < fc.val ∨ (klines_overall_change fc lc).val = 0) := by
  intro fc lc
  by_cases h : 0 < fc.val
  · refine ⟨Or.inr ?_, Or.inl h⟩
    have hc : (0 : PyFloat) < fc := (zero_lt_val fc).mpr h
    have hne : fc.val ≠ 0 := ne_of_gt h
    unfold klines_overall_change
    rw [if_pos hc, val_mul, val_div _ _ hne, val_sub, val_ofNat]
    norm_num
  · refine ⟨Or.inl h, Or.inr ?_⟩
    have hc : ¬ (0 : PyFloat) < fc := fun hlt => h ((zero_lt_val fc).mp hlt)
    unfold klines_overall_change
    rw [if_neg hc, val_zero]

/-- C6 (counterexample): with first close -1 and last close 1 the claimed
formula yields -200, but the code computes an overall change of 0 and the
rendered period summary reports "+0.00%"; so "the overall change equals
(last − first) / first × 100 for every non-empty candle list" is false. -/
theorem binance_c6_cex :
    (klines_overall_change (mkPy (-1) 1) (mkPy 1 1)).val = 0 ∧
    ((mkPy 1 1).val - (mkPy (-1) 1).val) / (mkPy (-1) 1).val * 100 = -200 ∧
    ((format_klines_markdown cexKlines "BTCUSDT" "1h").toOption.any
      (fun s => containsB s "- **Overall Change**: +0.00%" &&
        !(containsB s "-200"))) = true := by
  refine ⟨?_, ?_, by set_option maxRecDepth 100000 in decide⟩
  · have hc : ¬ (0 : PyFloat) < mkPy (-1) 1 := by decide
    unfold klines_overall_change
    rw [if_neg hc, val_zero]
  · simp [mkPy, PyFloat.val]
    norm_num

theorem get?_some_of_lt {α : Type} (k : List α) (i : Nat) (h : i < k.length) :
    ∃ v, k.get? i = some v := by
  cases hg : k.get? i with
  | some v => exact ⟨v, rfl⟩
  | none => exact absurd (List.get?_eq_none.mp hg) (by omega)

theorem kline_index_ok (k : List PyFloat) (i : Nat) (h : i < k.length) :
    ∃ v, kline_index k i = .ok v := by
  obtain ⟨v, hv⟩ := get?_some_of_lt k i h
  refine ⟨v, ?_⟩
  unfold kline_index
  rw [hv]

theorem kline_row_ok (k : List PyFloat) (h : 6 ≤ k.length) : ∃ s, kline_row k = .ok s := by
  obtain ⟨v0, h0⟩ := get?_some_of_lt k 0 (by omega)
  obtain ⟨v1, h1⟩ := get?_some_of_lt k 1 (by omega)
  obtain ⟨v2, h2⟩ := get?_some_of_lt k 2 (by omega)
  obtain ⟨v3, h3⟩ := get?_some_of_lt k 3 (by omega)
  obtain ⟨v4, h4⟩ := get?_some_of_lt k 4 (by omega)
  obtain ⟨v5, h5⟩ := get?_some_of_lt k 5 (by omega)
  unfold kline_row
  rw [h0, h1, h2, h3, h4, h5]
  exact ⟨_, rfl⟩

theorem getLastD_cons_mem {α : Type} : ∀ (l : List α) (a d : α), (a :: l).getLastD d ∈ a :: l := by
  intro l
  induction l with
  | nil => intro a d; simp [List.getLastD]
  | cons b l' ih =>
    intro a d
    rw [List.getLastD_cons]
    exact List.mem_cons_of_mem a (ih b a)

/-- C3 (amended): rendering succeeds whenever every trade carries `qty` and
every candle row has at least six positions, and each per-record field read
falls back to a default (a trade with every field absent renders as the
default row); but the trades summary reads `t["qty"]` by direct subscription
and candle rows are read positionally, so records missing those raise a
rendering failure (recovered only at the dispatch boundary). -/
theorem binance_c3_field_absence :
    (∀ (trades : List Trade) (sym : String),
       (trades.any (fun t => t.qty.isNone)) = true ∨
       ∃ s, format_trades_markdown trades sym = .ok s) ∧
    (∀ (klines : List (List PyFloat)) (sym iv : String),
       (klines.any (fun k => k.length < 6)) = true ∨
       ∃ s, format_klines_markdown klines sym iv = .ok s) ∧
    trade_row ⟨none, none, none, none⟩ = trade_row ⟨some 0, some 0, some 0, some false⟩ := by
  refine ⟨?_, ?_, by decide⟩
  · intro trades sym
    by_cases hq : ∀ t ∈ trades, t.qty.isSome
    · right
      rcases trades with _ | ⟨t, rest⟩
      · exact ⟨_, rfl⟩
      · obtain ⟨bv, hbv⟩ := sumQtyE_ok ((t :: rest).filter (fun x => !(x.isBuyerMaker.getD false)))
          (fun a ha => hq a (List.mem_of_mem_filter ha))
        obtain ⟨sv, hsv⟩ := sumQtyE_ok ((t :: rest).filter (fun x => x.isBuyerMaker.getD false))
          (fun a ha => hq a (List.mem_of_mem_filter ha))
        simp only [format_trades_markdown]
        rw [hbv, hsv]
        exact ⟨_, rfl⟩
    · left
      push_neg at hq
      obtain ⟨t, ht, hn⟩ := hq
      apply List.any_eq_true.mpr
      refine ⟨t, ht, ?_⟩
      cases hqt : t.qty with
      | some v => rw [hqt] at hn; exact absurd rfl hn
      | none => rfl
  · intro klines sym iv
    by_cases hk : ∀ k ∈ klines, 6 ≤ k.length
    · right
      rcases klines with _ | ⟨first, rest⟩
      · exact ⟨_, rfl⟩
      · obtain ⟨rows, hrows⟩ := mapME_ok_of_forall kline_row ((first :: rest).take 50)
          (fun k hkm => kline_row_ok k (hk k (List.take_subset _ _ hkm)))
        obtain ⟨fc, hfc⟩ := kline_index_ok first 4
          (by have := hk first (List.mem_cons_self first rest); omega)
        obtain ⟨lc, hlc⟩ := kline_index_ok ((first :: rest).getLastD []) 4
          (by have := hk _ (getLastD_cons_mem rest first []); omega)
        simp only [format_klines_markdown]
        rw [hrows, hfc, hlc]
        exact ⟨_, rfl⟩
    · left
      push_neg at hk
      obtain ⟨k, hkm, hkl⟩ := hk
      apply List.any_eq_true.mpr
      exact ⟨k, hkm, decide_eq_true (by omega)⟩

/-- C3 (counterexample): the claim "rendering a provider record that is
missing any expected field does not raise a rendering failure" is false — a
trade without `qty` makes the trades renderer raise `KeyError`, and a
one-element candle row makes the candle renderer raise `IndexError`. -/
theorem binance_c3_cex :
    format_trades_markdown [tradeNoQty] "BTCUSDT" = .error "KeyError: qty" ∧
    format_klines_markdown [[0]] "BTCUSDT" "1h" = .error "list index out of range" :=
  ⟨by set_option maxRecDepth 100000 in decide, by set_option maxRecDepth 100000 in decide⟩

theorem format_order_book_markdown_ok (data : OrderBook) (sym : String) (sl : List String)
    (h : ob_spread_lines data.bids data.asks = .ok sl) :
    format_order_book_markdown data sym =
      .ok (joinNL (ob_header data sym ++ ob_bid_rows data.bids ++ ob_ask_header ++
        ob_ask_rows data.asks ++ sl ++ [ob_note data.bids.length data.asks.length])) := by
  unfold format_order_book_markdown
  rw [h]

theorem format_order_book_markdown_err (data : OrderBook) (sym : String) (e : String)
    (h : ob_spread_lines data.bids data.asks = .error e) :
    format_order_book_markdown data sym = .error e := by
  unfold format_order_book_markdown
  rw [h]

theorem ob_spread_lines_pos (bp bq ap aq : PyFloat) (bt at' : List (PyFloat × PyFloat))
    (hn : bp.n ≠ 0) :
    ob_spread_lines ((bp, bq) :: bt) ((ap, aq) :: at') =
      .ok ["\n## Spread Analysis",
           "- **Best Bid**: " ++ money2 bp,
           "- **Best Ask**: " ++ money2 ap,
           "- **Spread**: " ++ money2 (ap - bp) ++ " (" ++
             pct3 ((ap - bp) / bp * 100) ++ "%)"] := by
  unfold ob_spread_lines pydivE
  dsimp only
  rw [if_neg hn]

/-- C2 (amended): with non-empty bids and asks and a non-zero best bid, the
markdown order book succeeds and its Spread Analysis reports exactly
spread = best-ask − best-bid and percentage = spread / best-bid × 100 (proved
on the exact rational values); when either side of the book is empty the
spread section is absent; but when the best bid is zero with both sides
non-empty, the rendering does not report the spread as absent — it raises a
`ZeroDivisionError`; and the best-price renderer always computes
spread = ask − bid, reporting a zero percentage when the bid is not
positive. -/
theorem binance_c2_spread :
    (∀ (lui : Option Int) (bp bq ap aq : PyFloat) (bt at' : List (PyFloat × PyFloat))
        (sym : String),
       bp.val = 0 ∨
       ∃ s, format_order_book_markdown ⟨lui, (bp, bq) :: bt, (ap, aq) :: at'⟩ sym = .ok s ∧
         strContains s ("- **Spread**: " ++ money2 (ap - bp) ++ " (" ++
           pct3 ((ap - bp) / bp * 100) ++ "%)") ∧
         (ap - bp).val = ap.val - bp.val ∧
         ((ap - bp) / bp * 100).val = (ap.val - bp.val) / bp.val * 100) ∧
    (∀ asks : List (PyFloat × PyFloat), ob_spread_lines [] asks = .ok []) ∧
    (∀ bids : List (PyFloat × PyFloat), ob_spread_lines bids [] = .ok []) ∧
    (∀ (lui : Option Int) (bp bq ap aq : PyFloat) (bt at' : List (PyFloat × PyFloat))
        (sym : String),
       ¬ bp.val = 0 ∨
       format_order_book_markdown ⟨lui, (bp, bq) :: bt, (ap, aq) :: at'⟩ sym =
         .error "float division by zero") ∧
    (∀ t : BookTicker,
       (bp_spread t).val = (t.askPrice.getD 0).val - (t.bidPrice.getD 0).val ∧
       (¬ 0 < (t.bidPrice.getD 0).val ∨
         (bp_spread_pct t).val = (bp_spread t).val / (t.bidPrice.getD 0).val * 100) ∧
       (0 < (t.bidPrice.getD 0).val ∨ (bp_spread_pct t).val = 0)) := by
  refine ⟨?_, ?_, ?_, ?_, ?_⟩
  · intro lui bp bq ap aq bt at' sym
    by_cases hz : bp.val = 0
    · exact Or.inl hz
    · right
      have hn : bp.n ≠ 0 := fun h0 => hz ((val_eq_zero_iff bp).mpr h0)
      have hsl := ob_spread_lines_pos bp bq ap aq bt at' hn
      have hfmt := format_order_book_markdown_ok ⟨lui, (bp, bq) :: bt, (ap, aq) :: at'⟩ sym _ hsl
      refine ⟨_, hfmt, ?_, val_sub ap bp, ?_⟩
      · apply strContains_of_mem_joinNL
        apply List.mem_append_left
        apply List.mem_append_right
        exact List.mem_cons_of_mem _ (List.mem_cons_of_mem _
          (List.mem_cons_of_mem _ (List.mem_cons_self _ _)))
      · rw [val_mul, val_div _ _ hz, val_sub, val_ofNat]
        norm_num
  · intro asks
    cases asks <;> rfl
  · intro bids
    cases bids <;> rfl
  · intro lui bp bq ap aq bt at' sym
    by_cases hz : bp.val = 0
    · right
      have hn : bp.n = 0 := (val_eq_zero_iff bp).mp hz
      apply format_order_book_markdown_err
      show ob_spread_lines ((bp, bq) :: bt) ((ap, aq) :: at') = _
      unfold ob_spread_lines pydivE
      dsimp only
      rw [if_pos hn]
    · exact Or.inl hz
  · intro t
    refine ⟨val_sub _ _, ?_, ?_⟩
    · by_cases hb : 0 < (t.bidPrice.getD 0).val
      · right
        unfold bp_spread_pct
        rw [if_pos ((zero_lt_val _).mpr hb), val_mul, val_div _ _ (ne_of_gt hb), val_ofNat]
        norm_num
      · exact Or.inl hb
    · by_cases hb : 0 < (t.bidPrice.getD 0).val
      · exact Or.inl hb
      · right
        unfold bp_spread_pct
        rw [if_neg (fun hlt => hb ((zero_lt_val _).mp hlt)), val_zero]

/-- C2 (counterexample): for an order book whose best bid price is exactly
zero and whose bid and ask sides are both non-empty, the spread is not
"reported as absent" — the markdown rendering raises `ZeroDivisionError` and
the tool returns the prefixed diagnostic instead of any order-book report. -/
theorem binance_c2_cex :
    format_order_book_markdown zbook "BTCUSDT" = .error "float division by zero" ∧
    binance_get_order_book ⟨"BTCUSDT", 100, RespFormat.markdown⟩ (.ok zbook) =
      "Error fetching order book: float division by zero" :=
  ⟨by set_option maxRecDepth 100000 in decide, by set_option maxRecDepth 100000 in decide⟩

/-- C8 (amended): the markdown renderers cap the enumerated records — at most
10 a side for the order book, at most 50 candles, at most 50 trades —
regardless of the input size; every successful order-book rendering carries
the trailing note with the per-side totals; every successful non-empty candle
rendering carries the "Candles Shown: k of n" line; but the trades rendering
carries its "Showing 50 most recent of n trades." note only when more than 50
trades were returned. -/
theorem binance_c8_record_caps :
    (∀ bids : List (PyFloat × PyFloat), (ob_bid_rows bids).length = min bids.length 10) ∧
    (∀ asks : List (PyFloat × PyFloat), (ob_ask_rows asks).length = min asks.length 10) ∧
    (∀ (ob : OrderBook) (sym : String),
       ((format_order_book_markdown ob sym).toOption.all
         (fun s => containsB s (ob_note ob.bids.length ob.asks.length))) = true) ∧
    (∀ klines : List (List PyFloat),
       ((mapME kline_row (klines.take 50)).toOption.all
         (fun rows => rows.length == min klines.length 50)) = true) ∧
    (∀ (klines : List (List PyFloat)) (sym iv : String),
       klines = [] ∨
       ((format_klines_markdown klines sym iv).toOption.all
         (fun s => containsB s (klines_shown_note klines.length))) = true) ∧
    (∀ trades : List Trade, (trades_rows trades).length = min trades.length 50) ∧
    (∀ (trades : List Trade) (sym : String),
       trades.length ≤ 50 ∨
       ((format_trades_markdown trades sym).toOption.all
         (fun s => containsB s (trades_note trades.length))) = true) := by
  refine ⟨?_, ?_, ?_, ?_, ?_, ?_, ?_⟩
  · intro bids
    unfold ob_bid_rows
    rw [List.length_map, List.length_take]
    exact Nat.min_comm _ _
  · intro asks
    unfold ob_ask_rows
    rw [List.length_map, List.length_take]
    exact Nat.min_comm _ _
  · intro ob sym
    cases hsl : ob_spread_lines ob.bids ob.asks with
    | error e =>
      rw [format_order_book_markdown_err ob sym e hsl]
      rfl
    | ok sl =>
      rw [format_order_book_markdown_ok ob sym sl hsl]
      dsimp only [Except.toOption, Option.all]
      apply containsB_true_of
      apply strContains_of_mem_joinNL
      exact List.mem_append_right _ (List.mem_singleton_self _)
  · intro klines
    cases h : mapME kline_row (klines.take 50) with
    | error e => rfl
    | ok rows =>
      dsimp only [Except.toOption, Option.all]
      have hl := mapME_ok_length kline_row _ rows h
      rw [List.length_take] at hl
      exact beq_iff_eq.mpr (by omega)
  · intro klines sym iv
    rcases klines with _ | ⟨first, rest⟩
    · exact Or.inl rfl
    · right
      cases h1 : mapME kline_row ((first :: rest).take 50) with
      | error e =>
        simp only [format_klines_markdown]
        rw [h1]
        rfl
      | ok rows =>
        cases h2 : kline_index first 4 with
        | error e =>
          simp only [format_klines_markdown]
          rw [h1, h2]
          rfl
        | ok fc =>
          cases h3 : kline_index ((first :: rest).getLastD []) 4 with
          | error e =>
            simp only [format_klines_markdown]
            rw [h1, h2, h3]
            rfl
          | ok lc =>
            simp only [format_klines_markdown]
            rw [h1, h2, h3]
            dsimp only [Except.toOption, Option.all]
            apply containsB_true_of
            apply strContains_of_mem_joinNL
            apply List.mem_append_right
            unfold klines_summary
            apply List.mem_append_left
            exact List.mem_cons_of_mem _ (List.mem_cons_of_mem _ (List.mem_cons_of_mem _
              (List.mem_cons_of_mem _ (List.mem_cons_self _ _))))
  · intro trades
    unfold trades_rows
    rw [List.length_map, List.length_take]
    exact Nat.min_comm _ _
  · intro trades sym
    by_cases hle : trades.length ≤ 50
    · exact Or.inl hle
    · right
      rcases trades with _ | ⟨t, rest⟩
      · exact absurd (by simp) hle
      · cases h1 : sumQtyE ((t :: rest).filter (fun x => !(x.isBuyerMaker.getD false))) with
        | error e =>
          simp only [format_trades_markdown]
          rw [h1]
          rfl
        | ok bv =>
          cases h2 : sumQtyE ((t :: rest).filter (fun x => x.isBuyerMaker.getD false)) with
          | error e =>
            simp only [format_trades_markdown]
            rw [h1, h2]
            rfl
          | ok sv =>
            simp only [format_trades_markdown]
            rw [h1, h2, if_pos (show 50 < (t :: rest).length by omega)]
            dsimp only [Except.toOption, Option.all]
            apply containsB_true_of
            apply strContains_of_mem_joinNL
            exact List.mem_append_right _ (List.mem_singleton_self _)

/-- C8 (counterexample): the claim "each rendering includes a trailing note
stating how many records are shown versus how many were returned" is false —
a trades rendering for a single trade succeeds and contains no "Showing",
no "Shown", and no " of " anywhere, so no shown-versus-returned note. -/
theorem binance_c8_cex :
    ((format_trades_markdown [wtrade] "BTCUSDT").toOption.any
      (fun s => !(containsB s "Showing") && !(containsB s "Shown") &&
        !(containsB s " of "))) = true := by
  set_option maxRecDepth 100000 in decide
